import Mathlib

/-!
Formal model of the batched, retrying telemetry shipper in Clever/kayvee-go
(`logger/analytics/analyticslogger.go` and
`logger/kinesisstream/kinesisstreamlogger.go`), together with theorems about
its buffering policy, flush/retry protocol and shutdown behaviour.

Conventions of the embedding:
* Go byte slices holding JSON text are modelled as `String`s; record payload
  sizes as `Nat`.
* Wall-clock time in `sendBatch`'s `for time.Now().Before(timeout)` loop is
  modelled by a fuel counter: the number of times the loop condition will
  still evaluate to true.
* The remote Firehose/Kinesis service is an oracle giving, for the i-th
  iteration of the send loop and the k-th retry attempt within it, either a
  transport error or a `PutRecordBatchOutput`.
-/

namespace Kayvee

/-- Model of a Go `error` value as seen by `RequestErrorClassifier.Classify`:
either an AWS/smithy API error carrying an error code (so that
`errors.As(err, &apiErr)` succeeds and `apiErr.ErrorCode()` returns the code),
or any other non-nil error. A nil error is `Option.none` at use sites. -/
inductive GoError where
  | apiError (code : String) (msg : String)
  | otherError (msg : String)
deriving DecidableEq

/-- The three verdicts of an eapache/go-resiliency `retrier.Classifier`. -/
inductive RetrierAction where
  | succeed
  | retry
  | fail
deriving DecidableEq

/-- From `RequestErrorClassifier.Classify` (analyticslogger.go): nil errors
succeed; an API error whose code is "RequestError" is retried; every other
error fails. -/
def classify : Option GoError → RetrierAction
  | none => RetrierAction.succeed
  | some (GoError.apiError code _) =>
      if code = "RequestError" then RetrierAction.retry else RetrierAction.fail
  | some (GoError.otherError _) => RetrierAction.fail

/-- The fields of `firehose.PutRecordBatchOutput` that `sendBatch` reads:
`FailedPutCount` and, for each record in input order, the per-record
`ErrorCode` (`none` models a nil ErrorCode, i.e. an accepted record). -/
structure PutBatchOutput where
  failedPutCount : Nat
  requestResponses : List (Option String)
deriving DecidableEq

/-- The resolved outcome of one `r.Run(...)`-wrapped Sink call inside
`sendBatch`: the propagated error, or the `PutRecordBatchOutput` stored in
`result`. -/
inductive CallResult where
  | err (e : GoError)
  | ok (out : PutBatchOutput)
deriving DecidableEq

/-- Modelled from the spec: `retrier.ExponentialBackoff(n, initial)` of the
eapache/go-resiliency library (a dependency whose source is not part of this
repository) — the list of `n` backoff delays, doubling from the initial one.
`sendBatch` instantiates it with n = 5 and initial = 100ms; delays are in
milliseconds here. -/
def exponentialBackoff (n : Nat) (initialMs : Nat) : List Nat :=
  (List.range n).map (fun i => initialMs * 2 ^ i)

/-- The bounded attempt count of the retry policy wrapping each Sink call
(spec: "bounded attempt count, e.g. 5"). -/
def maxSinkAttempts : Nat := 5

/-- Modelled from the spec: the `Run` loop of the eapache/go-resiliency
retrier that `sendBatch` builds with
`retrier.New(retrier.ExponentialBackoff(5, 100*time.Millisecond), RequestErrorClassifier{})`.
The library is a dependency, not part of this repository, so its loop is
modelled from the spec's words: each attempt runs the work function (here:
one `PutRecordBatch` call, whose outcome for the (k+1)-th attempt is
`attempts k` — a transport error or an output); a retry-classified error is
retried while retries remain, any other error ends the run with that error,
and a successful call ends the run with its output. The second argument is
the number of retries still allowed after the current attempt. -/
def retrierRunFrom (attempts : Nat → GoError ⊕ PutBatchOutput) : Nat → Nat → CallResult
  | k, 0 =>
      match attempts k with
      | Sum.inr out => CallResult.ok out
      | Sum.inl e => CallResult.err e
  | k, r + 1 =>
      match attempts k with
      | Sum.inr out => CallResult.ok out
      | Sum.inl e =>
          match classify (some e) with
          | RetrierAction.retry => retrierRunFrom attempts (k + 1) r
          | _ => CallResult.err e

/-- One full `r.Run(...)` as performed by `sendBatch`: at most
`maxSinkAttempts` attempts in total. -/
def runRetrier (attempts : Nat → GoError ⊕ PutBatchOutput) : CallResult :=
  retrierRunFrom attempts 0 (maxSinkAttempts - 1)

/-- Number of attempts the retrier actually performs, with the same recursion
structure as `retrierRunFrom`. -/
def retrierAttemptsFrom (attempts : Nat → GoError ⊕ PutBatchOutput) : Nat → Nat → Nat
  | _, 0 => 1
  | k, r + 1 =>
      match attempts k with
      | Sum.inr _ => 1
      | Sum.inl e =>
          match classify (some e) with
          | RetrierAction.retry => 1 + retrierAttemptsFrom attempts (k + 1) r
          | _ => 1

/-- The errors `sendBatch` can return: an error propagated out of `r.Run`
(the Sink/transport error), or the deadline error
`fmt.Errorf("timed out sending events: %d remaining", len(batch))` carrying
the number of records still in the working batch. -/
inductive SendError where
  | sinkError (e : GoError)
  | timedOut (remaining : Nat)
deriving DecidableEq

/-- The message text of a `sendBatch` error, mirroring the Go format string. -/
def sendErrorText : SendError → String
  | SendError.sinkError (GoError.apiError _ msg) => msg
  | SendError.sinkError (GoError.otherError msg) => msg
  | SendError.timedOut n => "timed out sending events: " ++ toString n ++ " remaining"

/-- The batch-rebuilding loop at the bottom of `sendBatch`:
`newbatch` collects `batch[i]` for exactly those `i` where
`result.RequestResponses[i].ErrorCode` is non-nil, in increasing order of `i`.
The recursion pairs each response with the record at the same position
(when the two lists have equal length — the `PutRecordBatch` API contract —
this is exactly the Go index loop; Go would panic on an out-of-range index,
which cannot occur at equal lengths). -/
def rebuildBatch {α : Type} : List (Option String) → List α → List α
  | [], _ => []
  | _ :: _, [] => []
  | some _ :: rs, b :: bs => b :: rebuildBatch rs bs
  | none :: rs, _ :: bs => rebuildBatch rs bs

/-- Written from the spec's words, for comparison with `rebuildBatch`: "the
rejected records (preserving their original order)" — the records paired with
a non-nil per-record error code, kept in input order. -/
def specRejectedSubset {α : Type} (responses : List (Option String)) (batch : List α) : List α :=
  ((responses.zip batch).filter (fun p => p.1.isSome)).map Prod.snd

/-- The `sendBatch` loop from analyticslogger.go (the kinesisstream variant is
line-for-line identical up to AWS types). Arguments: the per-iteration,
per-attempt Sink oracle; the index of the current loop iteration; the fuel
(how many more times `time.Now().Before(timeout)` evaluates true); and the
working batch. Returns the list of batches passed to the successive
`r.Run`-wrapped Sink calls, and `sendBatch`'s returned error (`none` = nil). -/
def sendBatchLoop {α : Type} (oracle : Nat → Nat → GoError ⊕ PutBatchOutput) :
    Nat → Nat → List α → List (List α) × Option SendError
  | _, 0, batch => ([], some (SendError.timedOut batch.length))
  | i, fuel + 1, batch =>
      match runRetrier (oracle i) with
      | CallResult.err e => ([batch], some (SendError.sinkError e))
      | CallResult.ok out =>
          if out.failedPutCount = 0 then
            ([batch], none)
          else
            let next := sendBatchLoop oracle (i + 1) fuel (rebuildBatch out.requestResponses batch)
            (batch :: next.1, next.2)

/-- `sendBatch(batch, fhAPI, fhStream, timeout)` with the loop started at its
first iteration. -/
def sendBatch {α : Type} (oracle : Nat → Nat → GoError ⊕ PutBatchOutput)
    (fuel : Nat) (batch : List α) : List (List α) × Option SendError :=
  sendBatchLoop oracle 0 fuel batch

/-- The Batch Buffer's mutable fields from the `Logger` struct: the open
batch (modelled by the byte sizes of its records — `len(bs)` of each record's
`Data` — which is all the buffering policy reads) and the byte accumulator
`batchBytes`. -/
structure BufferState where
  batch : List Nat
  batchBytes : Nat
deriving DecidableEq

/-- The two clamped size limits from the `Logger` struct. -/
structure BufferConfig where
  maxBatchRecords : Nat
  maxBatchBytes : Nat
deriving DecidableEq

/-- The Go threshold `int(0.9*float64(maxBatchBytes))`. For every
`maxBatchBytes` in the representable range (the service ceilings are 4–5
million), the float64 product `0.9 * float64(M)` lies strictly between
`9*M/10` and `9*M/10 + 1` or equals `9*M/10` exactly, because the double
nearest to 0.9 exceeds 9/10 by about 2.2e-17 and `9*M/10` is at least 0.1
below the next integer whenever it is not an integer; truncation therefore
yields `⌊9*M/10⌋`. -/
def sizeThreshold (maxBatchBytes : Nat) : Nat := 9 * maxBatchBytes / 10

/-- The buffer-add step inside `Logger.Write` (under `al.mu`): append the
record, add its size to `batchBytes`, and compute
`shouldSendBatch := len(al.batch) == al.maxBatchRecords || al.batchBytes > int(0.9*float64(al.maxBatchBytes))`. -/
def bufferAdd (cfg : BufferConfig) (st : BufferState) (recBytes : Nat) : BufferState × Bool :=
  let bytes := st.batchBytes + recBytes
  let batch := st.batch ++ [recBytes]
  (⟨batch, bytes⟩, batch.length == cfg.maxBatchRecords || decide (sizeThreshold cfg.maxBatchBytes < bytes))

/-- The body of `Logger.flush` as it acts on the buffer: if the batch is
non-empty, take it as a snapshot (handing it to a freshly spawned send task)
and reset the buffer; otherwise do nothing. Returns the snapshot, if any. -/
def flushOp (st : BufferState) : BufferState × Option (List Nat) :=
  if st.batch.isEmpty then (st, none) else (⟨[], 0⟩, some st.batch)

/-- One complete `Logger.Write` at the buffer level: the locked add followed
by `if shouldSendBatch { al.flush() }`, executed without interleaved events.
In the code `al.mu` is released between the add section and the `flush()`
call, so this step represents a Write that runs both halves before the next
Write or ticker fire touches the buffer (serialized operation); interleavings
of the two halves with other Writes are modelled separately by
`BufferAction`. -/
def writeStep (cfg : BufferConfig) (st : BufferState) (recBytes : Nat) : BufferState × Option (List Nat) :=
  let r := bufferAdd cfg st recBytes
  if r.2 then flushOp r.1 else (r.1, none)

/-- A primitive atomic action on the buffer, at the granularity of the
program's critical sections: the mutex-protected add section of one `Write`
(everything between `al.mu.Lock()` and `al.mu.Unlock()`), or one `al.flush()`
invocation (itself lock-protected). A `Write` whose add signals
`shouldSendBatch` performs its `flushCall` only after releasing the lock, so
under concurrent producers the adds of other Writes may interleave between a
Write's `add` and its `flushCall`. -/
inductive BufferAction where
  | add (recBytes : Nat)
  | flushCall
deriving DecidableEq

/-- Effect of one primitive action on the shared buffer. -/
def stepAction (cfg : BufferConfig) (st : BufferState) : BufferAction → BufferState × Option (List Nat)
  | BufferAction.add n => ((bufferAdd cfg st n).1, none)
  | BufferAction.flushCall => flushOp st

/-- Run a sequence of primitive actions — one interleaved history of
concurrent Writes and flush calls — from a state. -/
def runBufferActions (cfg : BufferConfig) : BufferState → List BufferAction → BufferState
  | st, [] => st
  | st, a :: as => runBufferActions cfg (stepAction cfg st a).1 as

/-- An externally visible event acting on the buffer: a `Write` of a record
of the given encoded size, or a fire of the sending ticker (which calls
`flush`). -/
inductive ShipEvent where
  | write (recBytes : Nat)
  | tick
deriving DecidableEq

/-- Effect of one event on the buffer. -/
def stepEvent (cfg : BufferConfig) (st : BufferState) : ShipEvent → BufferState × Option (List Nat)
  | ShipEvent.write n => writeStep cfg st n
  | ShipEvent.tick => flushOp st

/-- Run a sequence of events from a state, collecting the flushed snapshots
in order. -/
def runShip (cfg : BufferConfig) : BufferState → List ShipEvent → BufferState × List (List Nat)
  | st, [] => (st, [])
  | st, ev :: evs =>
      let r := stepEvent cfg st ev
      let rest := runShip cfg r.1 evs
      (rest.1, (match r.2 with | some b => [b] | none => []) ++ rest.2)

/-- The shipper together with the schedule of its `time.Ticker`: `nextTick`
is the absolute time at which the ticker fires next. `time.NewTicker` fires
at a fixed cadence; nothing in `Write` or `flush` touches `al.sendingTicker`,
so a flush leaves `nextTick` unchanged. -/
structure TimedShipper where
  buf : BufferState
  nextTick : Nat
deriving DecidableEq

/-- A `Write` performed at wall-clock time `now`. The Go code never reads the
clock in `Write` and never touches the ticker, so `now` is ignored and the
tick schedule is carried over unchanged. -/
def timedWriteAt (cfg : BufferConfig) (now : Nat) (s : TimedShipper) (recBytes : Nat) :
    TimedShipper × Option (List Nat) :=
  let _ := now
  let r := writeStep cfg s.buf recBytes
  (⟨r.1, s.nextTick⟩, r.2)

/-- A fire of the ticker at time `s.nextTick`: the scheduler goroutine calls
`flush`, and the ticker's next fire is one interval later. -/
def timedTickFire (interval : Nat) (s : TimedShipper) : TimedShipper × Option (List Nat) :=
  let r := flushOp s.buf
  (⟨r.1, s.nextTick + interval⟩, r.2)

/-- Shipper state for the shutdown contract: the buffer, the multiset of
batches owned by in-flight send tasks (the `sendBatchWG`-tracked goroutines
spawned by `flush`), and whether the ticker has been stopped and the
scheduler goroutine told to exit. -/
structure ShipperState where
  buf : BufferState
  pending : List (List Nat)
  tickerStopped : Bool
deriving DecidableEq

/-- A scheduler tick at the shipper level: once the ticker is stopped and the
`done` signal consumed, the scheduler goroutine has exited and no further
flushes happen; before that, a tick flushes the buffer, spawning a send task
for the snapshot (if any). -/
def shTick (s : ShipperState) : ShipperState :=
  if s.tickerStopped then s
  else
    let r := flushOp s.buf
    ⟨r.1, s.pending ++ (match r.2 with | some b => [b] | none => []), s.tickerStopped⟩

/-- The `Logger.Close` sequence: `sendingTicker.Stop()` and `done <- true`
(the scheduler goroutine exits), then one final `flush()` of whatever remains
buffered, then `sendBatchWG.Wait()` — every in-flight send task, including
the final one, runs its `sendBatch` to completion before `Close` returns.
Returns the post-`Close` state and the batches whose delivery was attempted
by the drained tasks. -/
def closeOp (s : ShipperState) : ShipperState × List (List Nat) :=
  let s1 : ShipperState := ⟨s.buf, s.pending, true⟩
  let r := flushOp s1.buf
  let s2 : ShipperState := ⟨r.1, s1.pending ++ (match r.2 with | some b => [b] | none => []), s1.tickerStopped⟩
  (⟨s2.buf, [], s2.tickerStopped⟩, s2.pending)

/-- A JSON value as it appears in the decoded `map[string]interface{}`.
The claims about `Write` concern field deletion, the string-typed partition
key and the length of the re-encoded payload, none of which depend on value
nesting, so values are restricted to JSON scalars. -/
inductive JVal where
  | jstr (s : String)
  | jnum (n : Int)
  | jbool (b : Bool)
  | jnull
deriving DecidableEq

/-- The decoded payload `m : map[string]interface{}` — an association list
with the keys in decode order (a Go map has each key at most once). -/
abbrev JObj : Type := List (String × JVal)

/-- Go `m[k]`: the value bound to `k`, if any. -/
def lookupKey (m : JObj) (k : String) : Option JVal :=
  (m.find? (fun p => p.1 == k)).map Prod.snd

/-- Go `delete(m, k)`: remove the binding for `k`. -/
def deleteKey (m : JObj) (k : String) : JObj :=
  m.filter (fun p => !(p.1 == k))

/-- The list of bookkeeping fields deleted by both `Write` implementations. -/
def ignoredFields : List String := ["level", "source", "title", "deploy_env", "wf_id"]

/-- The `for _, f := range ignoredFields { delete(m, f) }` loop. -/
def deleteFields (m : JObj) : JObj :=
  ignoredFields.foldl deleteKey m

/-- The reserved key recognised by the kinesisstream `Write`. -/
def partitionKeyFieldName : String := "partition_key"

/-- JSON string quoting as `encoding/json` performs it. The inputs reaching
it in these claims are plain ASCII without control characters, for which Go
escapes exactly the quote and the backslash. -/
def escapeChar (c : Char) : String :=
  if c = '"' then "\\\"" else if c = '\\' then "\\\\" else String.singleton c

/-- A JSON-quoted string literal. -/
def jsonQuote (s : String) : String :=
  "\"" ++ String.join (s.data.map escapeChar) ++ "\""

/-- Serialisation of a scalar JSON value as `encoding/json` prints it. -/
def encodeVal : JVal → String
  | JVal.jstr s => jsonQuote s
  | JVal.jnum n => toString n
  | JVal.jbool true => "true"
  | JVal.jbool false => "false"
  | JVal.jnull => "null"

/-- Lexicographic comparison of character lists by code point — Go's
byte-wise `<=` on the (ASCII) key strings occurring here. -/
def charListLe : List Char → List Char → Bool
  | [], _ => true
  | _ :: _, [] => false
  | a :: as, b :: bs =>
      if a.toNat < b.toNat then true
      else if b.toNat < a.toNat then false
      else charListLe as bs

/-- Key order used when marshalling a map. -/
def strLe (a b : String) : Bool := charListLe a.data b.data

/-- Insertion into a key-sorted association list. -/
def insertByKey (p : String × JVal) : List (String × JVal) → List (String × JVal)
  | [] => [p]
  | q :: qs => if strLe p.1 q.1 then p :: q :: qs else q :: insertByKey p qs

/-- Sorting by key: `encoding/json` marshals a `map[string]...` with its keys
in sorted order. -/
def sortByKey : List (String × JVal) → List (String × JVal)
  | [] => []
  | p :: ps => insertByKey p (sortByKey ps)

/-- `json.Marshal` of the map: a JSON object with the keys sorted. -/
def encodeObj (m : JObj) : String :=
  "\x7b" ++ String.intercalate "," ((sortByKey m).map (fun p => jsonQuote p.1 ++ ":" ++ encodeVal p.2)) ++ "\x7d"

/-- `Logger.Write` of the analytics (Firehose) backend. `dec` abstracts
`json.Unmarshal` of the external `encoding/json` package: the decoded map for
the input bytes, or `none` when decoding fails (in which case `Write` returns
the error and touches nothing). On success Go re-marshals the stripped map,
appends a newline, enqueues exactly those bytes as the record's `Data`, and
returns `len(bs)` of the re-encoded slice. The model returns that count and
the enqueued payload. -/
def analyticsWrite (dec : String → Option JObj) (bs : String) : Option (Nat × String) :=
  match dec bs with
  | none => none
  | some m =>
      let m2 := deleteFields m
      let out := encodeObj m2 ++ "\n"
      some (out.length, out)

/-- Little-endian decimal digits of a number, with a fuel argument bounding
the recursion depth (any fuel at least the number itself suffices). -/
def decDigitsAux : Nat → Nat → List Nat
  | _, 0 => []
  | 0, _ + 1 => []
  | f + 1, n + 1 => (n + 1) % 10 :: decDigitsAux f ((n + 1) / 10)

/-- Little-endian decimal digits of a number. -/
def decDigits (n : Nat) : List Nat := decDigitsAux n n

/-- Decimal rendering of a non-negative integer, as `fmt.Sprintf("%d", n)`
prints it: most significant digit first, and "0" for zero. -/
def decimalString (n : Nat) : String :=
  if n = 0 then "0" else String.mk (((decDigits n).map Nat.digitChar).reverse)

/-- A Kinesis `PutRecordsRequestEntry` as built by the kinesisstream
`Write`: the payload bytes and the partition key. -/
structure KRecord where
  data : String
  partitionKey : String
deriving DecidableEq

/-- `Logger.Write` of the kinesisstream backend. After deleting the
bookkeeping fields it reads `m[partitionKeyFieldName].(string)` (the type
assertion succeeds only on a string value), unconditionally deletes the
reserved field, and when the assertion failed uses
`fmt.Sprintf("%d", rand.Int())`; `randInt` models the non-negative draw of
`rand.Int()`. -/
def kinesisWrite (dec : String → Option JObj) (randInt : Nat) (bs : String) :
    Option (Nat × KRecord) :=
  match dec bs with
  | none => none
  | some m =>
      let m2 := deleteFields m
      let pk : Option String :=
        match lookupKey m2 partitionKeyFieldName with
        | some (JVal.jstr s) => some s
        | _ => none
      let m3 := deleteKey m2 partitionKeyFieldName
      let key := match pk with
        | some s => s
        | none => decimalString randInt
      let out := encodeObj m3 ++ "\n"
      some (out.length, ⟨out, key⟩)

/-- Concrete Sink environment: the first call rejects record 0 of 2 and
accepts record 1; every later call accepts everything. -/
def wOracle1 : Nat → Nat → GoError ⊕ PutBatchOutput :=
  fun i _ => if i = 0 then Sum.inr ⟨1, [some "InternalFailure", none]⟩ else Sum.inr ⟨0, [none]⟩

/-- Concrete environment in which every attempt fails with a non-retryable
transport error. -/
def wAttFail : Nat → GoError ⊕ PutBatchOutput :=
  fun _ => Sum.inl (GoError.otherError "connection refused")

/-- The same failing environment, per loop iteration. -/
def wOracleFail : Nat → Nat → GoError ⊕ PutBatchOutput := fun _ => wAttFail

/-- A concrete JSON input text for the Write models. -/
def wInput : String := "\x7b\"level\":\"info\",\"a\":\"b\"\x7d"

/-- Its decoded map. -/
def wObj : JObj := [("level", JVal.jstr "info"), ("a", JVal.jstr "b")]

/-- A decoder defined at exactly that input. -/
def wDec : String → Option JObj := fun s => if s = wInput then some wObj else none

/-- A decoded payload carrying a numeric (non-string) value under the
reserved partition-key field. -/
def wPkObj : JObj := [("partition_key", JVal.jnum 7)]

/-- A decoder returning that payload. -/
def wPkDec : String → Option JObj := fun _ => some wPkObj

/-- A decoded payload carrying an explicit string partition key. -/
def wPkStrObj : JObj := [("foo", JVal.jstr "bar"), ("partition_key", JVal.jstr "1")]

/-- A decoder returning that payload. -/
def wPkStrDec : String → Option JObj := fun _ => some wPkStrObj

/-- The Go rebuild loop computes exactly the spec's rejected subset. -/
theorem rebuildBatch_eq_spec {α : Type} (rs : List (Option String)) :
    ∀ bs : List α, rebuildBatch rs bs = specRejectedSubset rs bs := by
  induction rs with
  | nil => intro bs; cases bs <;> rfl
  | cons r rs ih =>
      intro bs
      cases bs with
      | nil => cases r <;> rfl
      | cons b bs =>
          cases r with
          | none => simpa [rebuildBatch, specRejectedSubset] using ih bs
          | some s => simpa [rebuildBatch, specRejectedSubset] using ih bs

/-- The rebuilt batch is a sublist of the batch sent — the rejected records
in their original relative order. -/
theorem rebuildBatch_sublist {α : Type} (rs : List (Option String)) :
    ∀ bs : List α, (rebuildBatch rs bs).Sublist bs := by
  induction rs with
  | nil => intro bs; cases bs <;> simp [rebuildBatch]
  | cons r rs ih =>
      intro bs
      cases bs with
      | nil => cases r <;> simp [rebuildBatch]
      | cons b bs =>
          cases r with
          | none => exact (ih bs).cons b
          | some s => exact (ih bs).cons₂ b

/-- With responses matching the batch in length, the rejected subset is empty
exactly when no per-record error code is present. -/
theorem specRejectedSubset_eq_nil_iff {α : Type} (rs : List (Option String)) :
    ∀ bs : List α, rs.length = bs.length →
      (specRejectedSubset rs bs = [] ↔ rs.filter Option.isSome = []) := by
  induction rs with
  | nil => intro bs h; simp [specRejectedSubset]
  | cons r rs ih =>
      intro bs h
      cases bs with
      | nil => simp at h
      | cons b bs =>
          cases r with
          | none =>
              simpa [specRejectedSubset, List.filter] using ih bs (by simpa using h)
          | some s => simp [specRejectedSubset, List.filter]

/-- Unfolding of one iteration of the send loop. -/
theorem sendBatchLoop_succ {α : Type} (oracle : Nat → Nat → GoError ⊕ PutBatchOutput)
    (i fuel : Nat) (batch : List α) :
    sendBatchLoop oracle i (fuel + 1) batch =
      match runRetrier (oracle i) with
      | CallResult.err e => ([batch], some (SendError.sinkError e))
      | CallResult.ok out =>
          if out.failedPutCount = 0 then
            ([batch], none)
          else
            let next := sendBatchLoop oracle (i + 1) fuel (rebuildBatch out.requestResponses batch)
            (batch :: next.1, next.2) := rfl

/-- An iteration whose wrapped Sink call resolves to an error returns that
error at once, with no further Sink calls. -/
theorem sendBatchLoop_err {α : Type} (oracle : Nat → Nat → GoError ⊕ PutBatchOutput)
    (i fuel : Nat) (batch : List α) (e : GoError)
    (hcall : runRetrier (oracle i) = CallResult.err e) :
    sendBatchLoop oracle i (fuel + 1) batch = ([batch], some (SendError.sinkError e)) := by
  rw [sendBatchLoop_succ, hcall]

/-- An iteration whose response reports `FailedPutCount == 0` returns nil. -/
theorem sendBatchLoop_success {α : Type} (oracle : Nat → Nat → GoError ⊕ PutBatchOutput)
    (i fuel : Nat) (batch : List α) (out : PutBatchOutput)
    (hcall : runRetrier (oracle i) = CallResult.ok out)
    (hfc : out.failedPutCount = 0) :
    sendBatchLoop oracle i (fuel + 1) batch = ([batch], none) := by
  rw [sendBatchLoop_succ, hcall]
  simp [hfc]

/-- An iteration with a non-zero `FailedPutCount` loops on the rebuilt batch. -/
theorem sendBatchLoop_cont {α : Type} (oracle : Nat → Nat → GoError ⊕ PutBatchOutput)
    (i fuel : Nat) (batch : List α) (out : PutBatchOutput)
    (hcall : runRetrier (oracle i) = CallResult.ok out)
    (hfc : out.failedPutCount ≠ 0) :
    sendBatchLoop oracle i (fuel + 1) batch =
      (batch :: (sendBatchLoop oracle (i + 1) fuel (rebuildBatch out.requestResponses batch)).1,
        (sendBatchLoop oracle (i + 1) fuel (rebuildBatch out.requestResponses batch)).2) := by
  rw [sendBatchLoop_succ, hcall]
  simp [hfc]

/-- Whenever at least one loop-condition check remains, the first Sink call
of the loop receives the working batch it was entered with. -/
theorem sendBatchLoop_head {α : Type} (oracle : Nat → Nat → GoError ⊕ PutBatchOutput)
    (i fuel : Nat) (b : List α) :
    ((sendBatchLoop oracle i (fuel + 1) b).1).get? 0 = some b := by
  cases hr : runRetrier (oracle i) with
  | err e => rw [sendBatchLoop_err oracle i fuel b _ hr]; rfl
  | ok out =>
      by_cases h : out.failedPutCount = 0
      · rw [sendBatchLoop_success oracle i fuel b _ hr h]; rfl
      · rw [sendBatchLoop_cont oracle i fuel b _ hr h]; rfl

/-- A run of the loop that made no Sink call at all ran out of fuel, i.e.
ended in the deadline error. -/
theorem sendBatchLoop_nil_calls {α : Type} (oracle : Nat → Nat → GoError ⊕ PutBatchOutput)
    (i fuel : Nat) (b : List α) (h : (sendBatchLoop oracle i fuel b).1 = []) :
    (sendBatchLoop oracle i fuel b).2 = some (SendError.timedOut b.length) := by
  cases fuel with
  | zero => rfl
  | succ fuel =>
      have hh := sendBatchLoop_head oracle i fuel b
      rw [h] at hh
      simp at hh

/-- C2: when the absolute deadline is exceeded while records remain in the
working batch, `sendBatch` stops, makes no further Sink calls, and returns the
error reporting how many records remain unsent (whose message text is
"timed out sending events: %d remaining" with that count). -/
theorem sendBatch_deadline_exceeded {α : Type} (oracle : Nat → Nat → GoError ⊕ PutBatchOutput)
    (i : Nat) (batch : List α) :
    sendBatchLoop oracle i 0 batch = ([], some (SendError.timedOut batch.length))
    ∧ sendErrorText (SendError.timedOut batch.length)
        = "timed out sending events: " ++ toString batch.length ++ " remaining" :=
  ⟨rfl, rfl⟩

/-- C1: on a Sink call that succeeds at the transport level but rejects a
non-empty subset S of the records sent (`FailedPutCount` consistent with the
per-record error codes, responses matching the batch in length), the rejected
subset S preserves the original relative order (it is a sublist of the batch),
the next Sink call of the loop receives exactly S, and the loop stops
successfully at this call exactly when the response rejects zero records. -/
theorem sendBatch_partial_failure_retry {α : Type}
    (oracle : Nat → Nat → GoError ⊕ PutBatchOutput) (i fuel : Nat) (batch : List α)
    (out : PutBatchOutput)
    (hcall : runRetrier (oracle i) = CallResult.ok out)
    (hlen : out.requestResponses.length = batch.length)
    (hcount : out.failedPutCount = (out.requestResponses.filter Option.isSome).length) :
    (specRejectedSubset out.requestResponses batch).Sublist batch
    ∧ (specRejectedSubset out.requestResponses batch ≠ [] →
        (sendBatchLoop oracle i (fuel + 2) batch).1.get? 0 = some batch
        ∧ (sendBatchLoop oracle i (fuel + 2) batch).1.get? 1
            = some (specRejectedSubset out.requestResponses batch))
    ∧ (sendBatchLoop oracle i (fuel + 1) batch = ([batch], none)
        ↔ specRejectedSubset out.requestResponses batch = []) := by
  have hnil := specRejectedSubset_eq_nil_iff out.requestResponses batch hlen
  refine ⟨rebuildBatch_eq_spec out.requestResponses batch ▸ rebuildBatch_sublist _ _, ?_, ?_⟩
  · intro hS
    have hfc : out.failedPutCount ≠ 0 := by
      intro h0
      have : out.requestResponses.filter Option.isSome = [] :=
        List.eq_nil_of_length_eq_zero (by omega)
      exact hS (hnil.mpr this)
    have hstep := sendBatchLoop_cont oracle i (fuel + 1) batch out hcall hfc
    have hhd := sendBatchLoop_head oracle (i + 1) fuel (rebuildBatch out.requestResponses batch)
    constructor
    · show (sendBatchLoop oracle i (fuel + 1 + 1) batch).1.get? 0 = some batch
      rw [hstep]
      rfl
    · show (sendBatchLoop oracle i (fuel + 1 + 1) batch).1.get? 1
          = some (specRejectedSubset out.requestResponses batch)
      rw [hstep]
      show (batch :: (sendBatchLoop oracle (i + 1) (fuel + 1) (rebuildBatch out.requestResponses batch)).1).get? (0 + 1)
          = some (specRejectedSubset out.requestResponses batch)
      rw [List.get?_cons_succ, hhd, rebuildBatch_eq_spec]
  · by_cases hfc : out.failedPutCount = 0
    · have hfilter : out.requestResponses.filter Option.isSome = [] :=
        List.eq_nil_of_length_eq_zero (by omega)
      constructor
      · intro _; exact hnil.mpr hfilter
      · intro _
        exact sendBatchLoop_success oracle i fuel batch out hcall hfc
    · constructor
      · intro heq
        exfalso
        rw [sendBatchLoop_cont oracle i fuel batch out hcall hfc] at heq
        have h1 : (sendBatchLoop oracle (i + 1) fuel (rebuildBatch out.requestResponses batch)).1 = [] := by
          have := congrArg Prod.fst heq
          simpa using this
        have h2 : (sendBatchLoop oracle (i + 1) fuel (rebuildBatch out.requestResponses batch)).2 = none := by
          simpa using congrArg Prod.snd heq
        have := sendBatchLoop_nil_calls oracle (i + 1) fuel _ h1
        rw [h2] at this
        cases this
      · intro hS
        exfalso
        have : out.requestResponses.filter Option.isSome = [] := hnil.mp hS
        exact hfc (by simp [hcount, this])

/-- With enough fuel, the fuelled digit extraction agrees with `Nat.digits`
in base 10. -/
theorem decDigitsAux_eq_digits (fuel : Nat) :
    ∀ n : Nat, n ≤ fuel → decDigitsAux fuel n = Nat.digits 10 n := by
  induction fuel with
  | zero =>
      intro n hn
      interval_cases n
      rw [Nat.digits_zero]
      rfl
  | succ f ih =>
      intro n hn
      cases n with
      | zero => rw [Nat.digits_zero]; rfl
      | succ n =>
          rw [decDigitsAux, Nat.digits_def' (by norm_num) (Nat.succ_pos n)]
          have hdiv : (n + 1) / 10 ≤ f := by
            have := Nat.div_lt_self (Nat.succ_pos n) (by norm_num : 1 < 10)
            omega
          rw [ih _ hdiv]

/-- The decimal digit lists agree with `Nat.digits`. -/
theorem decDigits_eq_digits (n : Nat) : decDigits n = Nat.digits 10 n :=
  decDigitsAux_eq_digits n n le_rfl

/-- Distinct decimal digits print as distinct characters. -/
theorem digitChar_injOn : ∀ x < 10, ∀ y < 10, Nat.digitChar x = Nat.digitChar y → x = y := by
  decide

/-- Mapping `Nat.digitChar` over lists of decimal digits is injective. -/
theorem map_digitChar_injOn :
    ∀ xs : List Nat, (∀ x ∈ xs, x < 10) →
      ∀ ys : List Nat, (∀ y ∈ ys, y < 10) →
        xs.map Nat.digitChar = ys.map Nat.digitChar → xs = ys := by
  intro xs
  induction xs with
  | nil =>
      intro _ ys _ h
      cases ys with
      | nil => rfl
      | cons y ys => simp at h
  | cons x xs ih =>
      intro hxs ys hys h
      cases ys with
      | nil => simp at h
      | cons y ys =>
          simp only [List.map_cons, List.cons.injEq] at h
          have hx := hxs x (List.mem_cons_self x xs)
          have hy := hys y (List.mem_cons_self y ys)
          have hxy : x = y := digitChar_injOn x hx y hy h.1
          subst hxy
          rw [ih (fun a ha => hxs a (List.mem_cons_of_mem _ ha)) ys
            (fun a ha => hys a (List.mem_cons_of_mem _ ha)) h.2]

/-- A non-zero number never prints as "0". -/
theorem decimalString_ne_zero_string (n : Nat) (hn : n ≠ 0) : decimalString n ≠ "0" := by
  intro h
  rw [decimalString, if_neg hn] at h
  have hdata : (((decDigits n).map Nat.digitChar).reverse) = ['0'] := by
    have := congrArg String.data h
    simpa using this
  rw [decDigits_eq_digits] at hdata
  have hmap : (Nat.digits 10 n).map Nat.digitChar = ['0'] := by
    have := congrArg List.reverse hdata
    simpa using this
  rcases hd : Nat.digits 10 n with _ | ⟨d, ds⟩
  · rw [hd] at hmap; simp at hmap
  · rw [hd] at hmap
    cases ds with
    | cons _ _ => simp at hmap
    | nil =>
        simp only [List.map_cons, List.map_nil, List.cons.injEq] at hmap
        have hdlt : d < 10 := Nat.digits_lt_base (by norm_num) (hd ▸ List.mem_cons_self d [])
        have hd0 : d = 0 := digitChar_injOn d hdlt 0 (by norm_num) (by simpa using hmap.1)
        have hof := Nat.ofDigits_digits 10 n
        rw [hd, hd0] at hof
        have hzero : n = 0 := by simpa [Nat.ofDigits] using hof.symm
        exact hn hzero

/-- `fmt.Sprintf("%d", ·)` is injective on the non-negative integers:
distinct random draws yield distinct partition keys. -/
theorem decimalString_injective (a b : Nat) (h : decimalString a = decimalString b) : a = b := by
  by_cases ha : a = 0
  · by_cases hb : b = 0
    · omega
    · subst ha
      exact absurd h.symm (decimalString_ne_zero_string b hb)
  · by_cases hb : b = 0
    · subst hb
      exact absurd h (decimalString_ne_zero_string a ha)
    · rw [decimalString, if_neg ha, decimalString, if_neg hb] at h
      have hdata := congrArg String.data h
      simp only [String.data] at hdata
      have hrev : ((decDigits a).map Nat.digitChar).reverse = ((decDigits b).map Nat.digitChar).reverse := hdata
      have hmap : (decDigits a).map Nat.digitChar = (decDigits b).map Nat.digitChar := by
        have := congrArg List.reverse hrev
        simpa using this
      rw [decDigits_eq_digits, decDigits_eq_digits] at hmap
      have hdig : Nat.digits 10 a = Nat.digits 10 b :=
        map_digitChar_injOn _ (fun x hx => Nat.digits_lt_base (by norm_num) hx) _
          (fun y hy => Nat.digits_lt_base (by norm_num) hy) hmap
      exact Nat.digits_inj_iff.mp hdig

/-- The retrier never performs more attempts than one plus the number of
allowed retries. -/
theorem retrierAttemptsFrom_le (att : Nat → GoError ⊕ PutBatchOutput) :
    ∀ (r k : Nat), retrierAttemptsFrom att k r ≤ r + 1 := by
  intro r
  induction r with
  | zero => intro k; simp [retrierAttemptsFrom]
  | succ r ih =>
      intro k
      simp only [retrierAttemptsFrom]
      rcases hak : att k with e | out
      · rcases hc : classify (some e) with _ | _ | _
        · simp [hc]
        · simp only [hc]
          have := ih (k + 1)
          omega
        · simp [hc]
      · simp

/-- An attempt whose error the classifier rejects ends the run at once with
that error: a single attempt, no retries. -/
theorem retrierRunFrom_fail_first (att : Nat → GoError ⊕ PutBatchOutput) (e : GoError)
    (k r : Nat) (ha : att k = Sum.inl e) (hc : classify (some e) = RetrierAction.fail) :
    retrierRunFrom att k r = CallResult.err e ∧ retrierAttemptsFrom att k r = 1 := by
  cases r with
  | zero => simp [retrierRunFrom, retrierAttemptsFrom, ha]
  | succ r => simp [retrierRunFrom, retrierAttemptsFrom, ha, hc]

/-- C3: the Classifier directs a retry exactly for API errors of code
"RequestError" (the network/connection-reset class the AWS SDK does not retry
itself); any other non-nil error fails the classifier, ends the retrier after
that single attempt with that error, and makes `sendBatch` return it at once
with no further Sink calls. The retry policy performs at most
`maxSinkAttempts` (= 5) attempts, with the exponential backoff schedule of
base delay 100ms. -/
theorem classifier_gates_retries {α : Type}
    (oracle : Nat → Nat → GoError ⊕ PutBatchOutput)
    (att : Nat → GoError ⊕ PutBatchOutput) (e : GoError) (i fuel : Nat) (batch : List α)
    (hother : ∀ m, e ≠ GoError.apiError "RequestError" m) :
    (∀ m, classify (some (GoError.apiError "RequestError" m)) = RetrierAction.retry)
    ∧ classify (some e) = RetrierAction.fail
    ∧ (att 0 = Sum.inl e →
        runRetrier att = CallResult.err e
        ∧ retrierAttemptsFrom att 0 (maxSinkAttempts - 1) = 1)
    ∧ retrierAttemptsFrom att 0 (maxSinkAttempts - 1) ≤ maxSinkAttempts
    ∧ exponentialBackoff maxSinkAttempts 100 = [100, 200, 400, 800, 1600]
    ∧ (runRetrier (oracle i) = CallResult.err e →
        sendBatchLoop oracle i (fuel + 1) batch = ([batch], some (SendError.sinkError e))) := by
  have hfail : classify (some e) = RetrierAction.fail := by
    cases e with
    | apiError c m =>
        have hc : c ≠ "RequestError" := by
          intro hc
          exact hother m (by rw [hc])
        simp [classify, hc]
    | otherError m => rfl
  refine ⟨fun m => by simp [classify], hfail, ?_, ?_, by decide, ?_⟩
  · intro ha
    exact retrierRunFrom_fail_first att e 0 (maxSinkAttempts - 1) ha hfail
  · have := retrierAttemptsFrom_le att (maxSinkAttempts - 1) 0
    simpa [maxSinkAttempts] using this
  · intro hrun
    exact sendBatchLoop_err oracle i fuel batch e hrun

/-- The buffer-add step signals a flush exactly when the post-append count
equals `maxBatchRecords` or the post-append byte total strictly exceeds nine
tenths of `maxBatchBytes` (the Go comparison `batchBytes > int(0.9*float64(maxBatchBytes))`,
expressed over the integers as `10*batchBytes > 9*maxBatchBytes`). -/
theorem bufferAdd_flush_iff (cfg : BufferConfig) (st : BufferState) (recBytes : Nat) :
    (bufferAdd cfg st recBytes).2 = true ↔
      st.batch.length + 1 = cfg.maxBatchRecords
      ∨ 9 * cfg.maxBatchBytes < 10 * (st.batchBytes + recBytes) := by
  have hdiv : sizeThreshold cfg.maxBatchBytes < st.batchBytes + recBytes
      ↔ 9 * cfg.maxBatchBytes < 10 * (st.batchBytes + recBytes) := by
    rw [sizeThreshold, Nat.div_lt_iff_lt_mul (by norm_num : 0 < 10)]
    omega
  simp [bufferAdd, hdiv]

/-- Running only-`Write` event sequences that keep the cumulative bytes at or
under nine tenths of `maxBatchBytes` and the count under `maxBatchRecords`
flushes nothing and leaves every record accumulated in the buffer. -/
theorem runShip_writes_no_flush (cfg : BufferConfig) :
    ∀ (ws : List Nat) (st : BufferState),
      st.batch.length + ws.length < cfg.maxBatchRecords →
      10 * (st.batchBytes + ws.sum) ≤ 9 * cfg.maxBatchBytes →
      runShip cfg st (ws.map ShipEvent.write)
        = (⟨st.batch ++ ws, st.batchBytes + ws.sum⟩, []) := by
  intro ws
  induction ws with
  | nil => intro st _ _; simp [runShip]
  | cons w ws ih =>
      intro st hlen hbytes
      have hnotfl : (bufferAdd cfg st w).2 = false := by
        rw [Bool.eq_false_iff]
        intro htrue
        rcases (bufferAdd_flush_iff cfg st w).mp htrue with h | h
        · simp only [List.length_cons] at hlen
          omega
        · simp only [List.sum_cons] at hbytes
          omega
      have hstep : stepEvent cfg st (ShipEvent.write w)
          = (⟨st.batch ++ [w], st.batchBytes + w⟩, none) := by
        show writeStep cfg st w = _
        simp only [writeStep, hnotfl]
        simp [bufferAdd]
      simp only [List.map_cons, runShip, hstep]
      rw [ih ⟨st.batch ++ [w], st.batchBytes + w⟩
        (by simp only [List.length_cons] at hlen; simp; omega)
        (by simp only [List.sum_cons] at hbytes; simp; omega)]
      simp [List.append_assoc]
      omega

/-- C4: the buffer-add step signals a flush iff, after appending, the record
count equals `maxBatchRecords` or the byte total strictly exceeds nine tenths
of `maxBatchBytes` (stated integrally: `10*bytes > 9*maxBatchBytes`, the
exact content of Go's `batchBytes > int(0.9*float64(maxBatchBytes))`); and a
sequence of Writes whose cumulative bytes stay at or under that margin and
whose count stays under `maxBatchRecords` triggers no flush at all. -/
theorem write_flush_policy (cfg : BufferConfig) (st : BufferState) (recBytes : Nat)
    (ws : List Nat)
    (hbytes : 10 * ws.sum ≤ 9 * cfg.maxBatchBytes)
    (hcount : ws.length < cfg.maxBatchRecords) :
    ((bufferAdd cfg st recBytes).2 = true ↔
      st.batch.length + 1 = cfg.maxBatchRecords
      ∨ 9 * cfg.maxBatchBytes < 10 * (st.batchBytes + recBytes))
    ∧ (runShip cfg ⟨[], 0⟩ (ws.map ShipEvent.write)).2 = [] := by
  refine ⟨bufferAdd_flush_iff cfg st recBytes, ?_⟩
  rw [runShip_writes_no_flush cfg ws ⟨[], 0⟩ (by simpa using hcount) (by simpa using hbytes)]

/-- The inductive invariant of the buffer under Writes and ticker fires: the
open batch stays strictly below the record ceiling and its bytes within nine
tenths of the byte ceiling. -/
theorem runShip_invariant (cfg : BufferConfig) (hrec : 1 ≤ cfg.maxBatchRecords) :
    ∀ (evs : List ShipEvent) (st : BufferState),
      st.batch.length < cfg.maxBatchRecords →
      10 * st.batchBytes ≤ 9 * cfg.maxBatchBytes →
      (runShip cfg st evs).1.batch.length < cfg.maxBatchRecords
      ∧ 10 * (runShip cfg st evs).1.batchBytes ≤ 9 * cfg.maxBatchBytes := by
  intro evs
  induction evs with
  | nil => intro st h1 h2; exact ⟨h1, h2⟩
  | cons ev evs ih =>
      intro st h1 h2
      cases ev with
      | write w =>
          by_cases hfl : (bufferAdd cfg st w).2 = true
          · have hstep : stepEvent cfg st (ShipEvent.write w) = (⟨[], 0⟩, some (st.batch ++ [w])) := by
              show writeStep cfg st w = _
              simp only [writeStep, hfl, if_true]
              simp [bufferAdd, flushOp]
            simp only [runShip, hstep]
            exact ih ⟨[], 0⟩ (by simpa using hrec) (by simp)
          · have hfl2 : (bufferAdd cfg st w).2 = false := by simpa using hfl
            have hstep : stepEvent cfg st (ShipEvent.write w)
                = (⟨st.batch ++ [w], st.batchBytes + w⟩, none) := by
              show writeStep cfg st w = _
              simp only [writeStep, hfl2]
              simp [bufferAdd]
            have hiff := bufferAdd_flush_iff cfg st w
            have hnot : ¬(st.batch.length + 1 = cfg.maxBatchRecords
                ∨ 9 * cfg.maxBatchBytes < 10 * (st.batchBytes + w)) :=
              fun hor => hfl (hiff.mpr hor)
            push_neg at hnot
            simp only [runShip, hstep]
            exact ih ⟨st.batch ++ [w], st.batchBytes + w⟩ (by simp; omega) (by simp; omega)
      | tick =>
          by_cases hemp : st.batch.isEmpty
          · have hstep : stepEvent cfg st ShipEvent.tick = (st, none) := by
              simp [stepEvent, flushOp, hemp]
            simp only [runShip, hstep]
            exact ih st h1 h2
          · have hstep : stepEvent cfg st ShipEvent.tick = (⟨[], 0⟩, some st.batch) := by
              simp [stepEvent, flushOp, hemp]
            simp only [runShip, hstep]
            exact ih ⟨[], 0⟩ (by simpa using hrec) (by simp)

/-- C5 counterexample: with `maxBatchRecords = 2`, start from a buffer owning
one record. Writer A's add section appends the second record — its check
`len(batch) == maxBatchRecords` signals a flush — and A releases the lock;
before A's `flush()` runs, writer B's add section appends a third record, and
B's own check (`3 == 2`, bytes under the margin) signals nothing. The buffer
then owns 3 > `maxBatchRecords` records: a reachable state of the Shipper in
which the claimed invariant `count(batch) ≤ maxBatchRecords` fails. -/
theorem buffer_bounds_race_cex :
    (runBufferActions ⟨2, 1000000⟩ ⟨[], 0⟩
        [BufferAction.add 1, BufferAction.add 1, BufferAction.add 1]).batch.length = 3
    ∧ ¬ (runBufferActions ⟨2, 1000000⟩ ⟨[], 0⟩
        [BufferAction.add 1, BufferAction.add 1, BufferAction.add 1]).batch.length ≤ 2
    ∧ (bufferAdd ⟨2, 1000000⟩ ⟨[1], 1⟩ 1).2 = true
    ∧ (bufferAdd ⟨2, 1000000⟩ ⟨[1, 1], 2⟩ 1).2 = false := by
  decide

/-- C5 (amended): under serialized operation — each Write's locked add and
its subsequent flush complete before the next Write or ticker fire (the
`writeStep`/`runShip` granularity) — every reachable buffer state satisfies
both service bounds: record count at most `maxBatchRecords` and byte total at
most `maxBatchBytes`; a Write whose record crosses either bound flushes
within the same step, leaving the buffer empty, which covers a single Write
larger than `maxBatchBytes`. Under concurrent Writes the lock release between
a Write's add and its `flush()` lets another add slip in, so the bounds are
not an invariant of all interleavings (see the counterexample). -/
theorem buffer_owned_batch_bounds (cfg : BufferConfig) (hrec : 1 ≤ cfg.maxBatchRecords)
    (evs : List ShipEvent) :
    (runShip cfg ⟨[], 0⟩ evs).1.batch.length ≤ cfg.maxBatchRecords
    ∧ (runShip cfg ⟨[], 0⟩ evs).1.batchBytes ≤ cfg.maxBatchBytes := by
  have h := runShip_invariant cfg hrec evs ⟨[], 0⟩ (by simpa using hrec) (by simp)
  exact ⟨Nat.le_of_lt h.1, by omega⟩

/-- C6 counterexample: invoked with an empty batch before the deadline, the
`sendBatch` loop itself does make a Sink call (carrying zero records) — the
empty-batch short-circuit is not located in the Retry Engine's send routine.
(It returns nil, so the call is harmless; the send succeeds.) -/
theorem sendBatch_empty_batch_cex :
    (sendBatch (fun _ _ => Sum.inr ⟨0, []⟩) 1 ([] : List Nat)).1 = [[]]
    ∧ (sendBatch (fun _ _ => Sum.inr ⟨0, []⟩) 1 ([] : List Nat)).2 = none := by
  decide

/-- C6 (amended): the empty-batch short-circuit sits in `flush`, which guards
with `len(al.batch) > 0`: for an empty buffer it spawns no send task, makes
no Sink call, and reports no error — so `sendBatch` is never invoked with an
empty batch. -/
theorem flush_empty_batch_short_circuits (st : BufferState) (h : st.batch = []) :
    flushOp st = (st, none) := by
  simp [flushOp, h]

/-- C6 witness: the empty buffer state. -/
theorem flush_empty_batch_short_circuits_witness : flushOp ⟨[], 0⟩ = (⟨[], 0⟩, none) :=
  flush_empty_batch_short_circuits ⟨[], 0⟩ rfl

/-- C7 counterexample: with `maxBatchRecords = 1` and a tick scheduled at
time 10 with interval 10, a Write at time 9 triggers a size-triggered flush,
yet the ticker's next fire stays at 10 — it is not postponed to a full
interval (time 19) after the flush. The "last flush" timestamp does not
reset: the `time.Ticker` keeps its fixed schedule. -/
theorem flush_not_reset_timer_cex :
    (timedWriteAt ⟨1, 1000000⟩ 9 ⟨⟨[], 0⟩, 10⟩ 3).2 = some [3]
    ∧ (timedWriteAt ⟨1, 1000000⟩ 9 ⟨⟨[], 0⟩, 10⟩ 3).1.nextTick = 10
    ∧ ¬ 9 + 10 ≤ (timedWriteAt ⟨1, 1000000⟩ 9 ⟨⟨[], 0⟩, 10⟩ 3).1.nextTick := by
  decide

/-- C7 (amended): flushes never touch the ticker — a Write (whether or not it
flushes) leaves the tick schedule unchanged — and a ticker fire that follows
a buffer-emptying flush finds an empty buffer and is a no-op (no task, no
Sink call, no error), after which the ticker advances by one fixed interval. -/
theorem ticker_schedule_independent_of_flushes (cfg : BufferConfig) (now interval : Nat)
    (s : TimedShipper) (recBytes : Nat) (hempty : s.buf.batch = []) :
    (timedWriteAt cfg now s recBytes).1.nextTick = s.nextTick
    ∧ timedTickFire interval s = (⟨s.buf, s.nextTick + interval⟩, none) := by
  constructor
  · rfl
  · simp [timedTickFire, flushOp, hempty]

/-- C7 witness: an empty shipper with a tick scheduled at 10 and interval 10. -/
theorem ticker_schedule_independent_of_flushes_witness :
    (timedWriteAt ⟨2, 100⟩ 9 ⟨⟨[], 0⟩, 10⟩ 3).1.nextTick = 10
    ∧ timedTickFire 10 ⟨⟨[], 0⟩, 10⟩ = (⟨⟨[], 0⟩, 20⟩, none) :=
  ticker_schedule_independent_of_flushes ⟨2, 100⟩ 9 10 ⟨⟨[], 0⟩, 10⟩ 3 rfl

/-- C9: `Close` stops the ticker and the scheduler, performs one final flush
of whatever remains buffered, and drains: after `Close` the in-flight task
set is empty, the batches attempted are exactly the previously in-flight ones
followed by the final buffered remainder (so every record accepted by a
completed `Write` got a delivery attempt), and a subsequent ticker event on
the closed shipper changes nothing — no further Sink calls occur. -/
theorem close_drains_fully (s : ShipperState) :
    (closeOp s).1.pending = []
    ∧ (closeOp s).1.tickerStopped = true
    ∧ (closeOp s).2 = s.pending ++ (if s.buf.batch.isEmpty then [] else [s.buf.batch])
    ∧ shTick (closeOp s).1 = (closeOp s).1 := by
  by_cases h : s.buf.batch.isEmpty <;> simp [closeOp, flushOp, shTick, h]

/-- After `delete(m, k)`, the key `k` is no longer present. -/
theorem lookupKey_deleteKey (m : JObj) (k : String) :
    lookupKey (deleteKey m k) k = none := by
  induction m with
  | nil => rfl
  | cons p ps ih =>
      by_cases h : p.1 == k
      · simp only [deleteKey, List.filter_cons, h, Bool.not_true, if_neg]
        simp only [deleteKey] at ih
        exact ih
      · simp only [deleteKey, List.filter_cons, h] at ih ⊢
        simp only [lookupKey, List.find?_cons, h] at ih ⊢
        simp only [Bool.not_false, if_true, List.find?_cons, h]
        exact ih

/-- C8 counterexample: a payload carrying the reserved partition-key field
with an explicit (numeric) value 7. The type assertion `.(string)` fails, so
the produced Record carries the randomly generated key ("42" for draw 42),
not the explicit value — even though the field is stripped. -/
theorem kinesis_partition_key_nonstring_cex :
    lookupKey wPkObj partitionKeyFieldName = some (JVal.jnum 7)
    ∧ kinesisWrite wPkDec 42 "x" = some (3, ⟨"\x7b\x7d\n", "42"⟩)
    ∧ ("42" : String) ≠ "7" := by
  decide

/-- C8 (amended): if the payload carries the reserved partition-key field
with an explicit string value, the produced Record carries exactly that key;
otherwise (field absent or its value not a string) the Record carries the
decimal rendering of the random draw, and distinct draws give distinct keys.
In both cases the reserved field is stripped from the transmitted payload. -/
theorem kinesis_partition_key_policy (dec : String → Option JObj) (bs : String)
    (m : JObj) (randInt : Nat) (hdec : dec bs = some m) :
    (∀ s, lookupKey (deleteFields m) partitionKeyFieldName = some (JVal.jstr s) →
        kinesisWrite dec randInt bs
          = some ((encodeObj (deleteKey (deleteFields m) partitionKeyFieldName) ++ "\n").length,
              ⟨encodeObj (deleteKey (deleteFields m) partitionKeyFieldName) ++ "\n", s⟩))
    ∧ ((∀ s, lookupKey (deleteFields m) partitionKeyFieldName ≠ some (JVal.jstr s)) →
        kinesisWrite dec randInt bs
          = some ((encodeObj (deleteKey (deleteFields m) partitionKeyFieldName) ++ "\n").length,
              ⟨encodeObj (deleteKey (deleteFields m) partitionKeyFieldName) ++ "\n",
                decimalString randInt⟩))
    ∧ lookupKey (deleteKey (deleteFields m) partitionKeyFieldName) partitionKeyFieldName = none
    ∧ (∀ r1 r2 : Nat, decimalString r1 = decimalString r2 → r1 = r2) := by
  refine ⟨?_, ?_, lookupKey_deleteKey _ _, decimalString_injective⟩
  · intro s hs
    simp [kinesisWrite, hdec, hs]
  · intro hs
    rcases hv : lookupKey (deleteFields m) partitionKeyFieldName with _ | v
    · simp [kinesisWrite, hdec, hv]
    · cases v with
      | jstr s => exact absurd hv (hs s)
      | jnum n => simp [kinesisWrite, hdec, hv]
      | jbool b => simp [kinesisWrite, hdec, hv]
      | jnull => simp [kinesisWrite, hdec, hv]

/-- C8 witness: an explicit string key "1" is preserved exactly and the field
stripped; a numeric-field payload under draw 42 gets key "42", and draws 41
and 42 give distinct keys. -/
theorem kinesis_partition_key_policy_witness :
    kinesisWrite wPkStrDec 42 "x" = some (14, ⟨"\x7b\"foo\":\"bar\"\x7d\n", "1"⟩)
    ∧ lookupKey (deleteKey (deleteFields wPkStrObj) partitionKeyFieldName)
        partitionKeyFieldName = none := by
  have h := kinesis_partition_key_policy wPkStrDec "x" wPkStrObj 42 rfl
  have h1 := h.1 "1" (by decide)
  constructor
  · rw [h1]
    decide
  · exact h.2.2.1

/-- C10: a successful `Write` returns the byte count of the record it
actually enqueues — the payload obtained by decoding the input, deleting the
bookkeeping fields, re-encoding, and appending a newline — which can differ
from the length of the byte slice the caller passed in (concretely: 10
returned for a 24-byte input whose "level" field is stripped and whose
re-encoding is more compact). -/
theorem analytics_write_byte_count (dec : String → Option JObj) (bs : String)
    (m : JObj) (hdec : dec bs = some m) :
    analyticsWrite dec bs
      = some ((encodeObj (deleteFields m) ++ "\n").length, encodeObj (deleteFields m) ++ "\n")
    ∧ analyticsWrite wDec wInput = some (10, "\x7b\"a\":\"b\"\x7d\n")
    ∧ wInput.length = 24
    ∧ (10 : Nat) ≠ 24 := by
  refine ⟨by simp [analyticsWrite, hdec], by decide, by decide, by decide⟩

/-- C10 witness: the concrete decoder and input. -/
theorem analytics_write_byte_count_witness :
    analyticsWrite wDec wInput = some (10, "\x7b\"a\":\"b\"\x7d\n")
    ∧ wInput.length = 24 := by
  have h := analytics_write_byte_count wDec wInput wObj (by decide)
  exact ⟨h.2.1, h.2.2.1⟩

/-- C1 witness: a 2-record batch whose first response rejects record 0; the
second Sink call receives exactly that record. -/
theorem sendBatch_partial_failure_retry_witness :
    (sendBatchLoop wOracle1 0 2 [10, 20]).1.get? 0 = some [10, 20]
    ∧ (sendBatchLoop wOracle1 0 2 [10, 20]).1.get? 1 = some [10] := by
  have h := sendBatch_partial_failure_retry wOracle1 0 0 [10, 20]
      ⟨1, [some "InternalFailure", none]⟩ (by decide) (by decide) (by decide)
  obtain ⟨h0, h1⟩ := h.2.1 (by decide)
  have h0a : (sendBatchLoop wOracle1 0 2 [10, 20]).1.get? 0 = some [10, 20] := h0
  have h1a : (sendBatchLoop wOracle1 0 2 [10, 20]).1.get? 1
      = some (specRejectedSubset [some "InternalFailure", none] [10, 20]) := h1
  refine ⟨h0a, ?_⟩
  rw [h1a]
  decide

/-- C3 witness: a non-retryable connection-refused error is classified fail,
ends the retrier after one attempt, and is immediately propagated by the send
loop with no further Sink calls. -/
theorem classifier_gates_retries_witness :
    classify (some (GoError.otherError "connection refused")) = RetrierAction.fail
    ∧ runRetrier wAttFail = CallResult.err (GoError.otherError "connection refused")
    ∧ sendBatchLoop wOracleFail 0 1 [7, 8]
        = ([[7, 8]], some (SendError.sinkError (GoError.otherError "connection refused"))) := by
  have h := classifier_gates_retries wOracleFail wAttFail
      (GoError.otherError "connection refused") 0 0 [7, 8]
      (fun m hm => GoError.noConfusion hm)
  exact ⟨h.2.1, (h.2.2.1 rfl).1, h.2.2.2.2.2 (by decide)⟩

/-- C4 witness: with ceilings 2 records / 100 bytes, the add-step iff at a
concrete state, and a single 5-byte Write flushing nothing. -/
theorem write_flush_policy_witness :
    ((bufferAdd ⟨2, 100⟩ ⟨[4], 4⟩ 5).2 = true ↔ 1 + 1 = 2 ∨ 9 * 100 < 10 * (4 + 5))
    ∧ (runShip ⟨2, 100⟩ ⟨[], 0⟩ ([5].map ShipEvent.write)).2 = [] := by
  have h := write_flush_policy ⟨2, 100⟩ ⟨[4], 4⟩ 5 [5] (by decide) (by decide)
  exact ⟨by simpa using h.1, h.2⟩

/-- C5 witness: ceilings 1 record / 5 bytes and a single 100-byte Write
(larger than `maxBatchBytes`): the post-step buffer satisfies both bounds. -/
theorem buffer_owned_batch_bounds_witness :
    (runShip ⟨1, 5⟩ ⟨[], 0⟩ [ShipEvent.write 100]).1.batch.length ≤ 1
    ∧ (runShip ⟨1, 5⟩ ⟨[], 0⟩ [ShipEvent.write 100]).1.batchBytes ≤ 5 :=
  buffer_owned_batch_bounds ⟨1, 5⟩ (by decide) [ShipEvent.write 100]

end Kayvee
